import Mathlib

/-!
Shallow embedding of the `CommanderLeague` ledger from
`league_tracker_ui.py`: the player roster, game recording, standings
computation, roster management, reset and JSON persistence.

Modelling conventions:
* A Python `dict` is an insertion-ordered association list with distinct
  keys, so `self.players` becomes `List (String × PlayerData)` and the
  `results_dict` argument becomes `List (String × String)`.
* Python `int` becomes `Nat` (all counters start at 0 and only grow).
* The float average `points / games` becomes exact division in `Rat`.
* A `KeyError` escaping `record_game_results` is modelled by returning
  `some offendingName` next to the (partially mutated) state.
* The filesystem is modelled as `Option Json`: `none` is a missing file
  (Python's `FileNotFoundError`), `some j` a file holding the document `j`.
-/

namespace LeagueTracker

/-- One value of the `self.players` mapping:
`{"points": …, "games_played": …, "mvp_count": …, "color": …}`. -/
structure PlayerData where
  points : Nat
  games_played : Nat
  mvp_count : Nat
  color : String
deriving Repr, DecidableEq

/-- One entry of `self.history`, as built in `record_game_results`. -/
structure GameRecord where
  timestamp : String
  results : List (String × String)
  notes : String
  mvp : String
  deck_used : String
deriving Repr, DecidableEq

/-- The mutable state of a `CommanderLeague` instance. -/
structure LeagueState where
  players : List (String × PlayerData)
  history : List GameRecord
deriving Repr, DecidableEq

/-- The fixed palette appearing in `__init__` and `add_player`. -/
def team_colors : List String :=
  ["red", "blue", "green", "orange", "purple", "magenta", "cyan", "yellow", "pink"]

/-- `team_colors[k % len(team_colors)]`. -/
def paletteColor (k : Nat) : String :=
  team_colors.get ⟨k % team_colors.length, Nat.mod_lt _ (by decide)⟩

/-- `placement_points.get(place, 0)`: the closed lookup table of
`record_game_results` with default 0 (the table itself maps the tag
`5th+` to 0, so the default also covers it). -/
def placementPoints (place : String) : Nat :=
  if place = "1st" then 5
  else if place = "2nd" then 3
  else if place = "3rd" then 2
  else if place = "4th" then 1
  else 0

/-- In-place update of one key of the roster mapping, preserving the
dict's insertion order (`self.players[name][…] = …`). -/
def updatePlayer (ps : List (String × PlayerData)) (name : String)
    (f : PlayerData → PlayerData) : List (String × PlayerData) :=
  ps.map (fun e => if e.1 = name then (e.1, f e.2) else e)

/-- `self.players[player]["points"] += points; …["games_played"] += 1`. -/
def creditPlacement (place : String) (d : PlayerData) : PlayerData :=
  { d with points := d.points + placementPoints place,
           games_played := d.games_played + 1 }

/-- `self.players[mvp]["points"] += 1; …["mvp_count"] += 1`. -/
def creditMvp (d : PlayerData) : PlayerData :=
  { d with points := d.points + 1, mvp_count := d.mvp_count + 1 }

/-- The `for player, place in results_dict.items()` loop of
`record_game_results`. Returns the roster after the loop together with
`some player` when the loop dies with a `KeyError` at `player` (a name
absent from the roster carrying a placement other than `Did Not Play`);
at that point the earlier iterations have already been applied. -/
def processResults :
    List (String × PlayerData) → List (String × String) →
    List (String × PlayerData) × Option String
  | ps, [] => (ps, none)
  | ps, (name, place) :: rest =>
    if place = "Did Not Play" then processResults ps rest
    else if (ps.lookup name).isSome then
      processResults (updatePlayer ps name (creditPlacement place)) rest
    else (ps, some name)

/-- `CommanderLeague.record_game_results`. The wall-clock timestamp is an
explicit argument. The second component is `some player` when the
placement loop raises `KeyError player`; the game has been appended to
the history before the loop runs, so it is present either way, and the
MVP credit (`if mvp and mvp in self.players`) only runs when the loop
finishes. -/
def record_game_results (s : LeagueState) (timestamp : String)
    (results_dict : List (String × String)) (notes mvp deck_used : String) :
    LeagueState × Option String :=
  let game : GameRecord :=
    { timestamp := timestamp, results := results_dict, notes := notes,
      mvp := mvp, deck_used := deck_used }
  let hist := s.history ++ [game]
  match processResults s.players results_dict with
  | (ps, some missing) => ({ players := ps, history := hist }, some missing)
  | (ps, none) =>
    if mvp ≠ "" ∧ (ps.lookup mvp).isSome then
      ({ players := updatePlayer ps mvp creditMvp, history := hist }, none)
    else
      ({ players := ps, history := hist }, none)

/-- `(points / games) if games > 0 else 0`, in exact rational arithmetic. -/
def avgOf (points games : Nat) : Rat :=
  if games > 0 then (points : Rat) / (games : Rat) else 0

/-- One tuple `(player, points, games, avg, mvp_count)` of `get_standings`. -/
structure StandingRow where
  name : String
  points : Nat
  games : Nat
  avg : Rat
  mvp : Nat
deriving Repr, DecidableEq

/-- The tuple appended for one roster entry in `get_standings`. -/
def standingRow (e : String × PlayerData) : StandingRow :=
  { name := e.1, points := e.2.points, games := e.2.games_played,
    avg := avgOf e.2.points e.2.games_played, mvp := e.2.mvp_count }

/-- The unsorted `standings` list built by the first loop of
`get_standings`, in roster insertion order. -/
def standingsList (s : LeagueState) : List StandingRow :=
  s.players.map standingRow

/-- `sorted(…, key=lambda x: x[2], reverse=True)`: `a` may precede `b`. -/
def byGamesDesc (a b : StandingRow) : Bool :=
  decide (b.games ≤ a.games)

/-- `sorted(…, key=lambda x: x[3], reverse=True)`: `a` may precede `b`. -/
def byAvgDesc (a b : StandingRow) : Bool :=
  decide (b.avg ≤ a.avg)

/-- `CommanderLeague.get_standings`. Python's `sorted` is a stable merge
sort; `reverse=True` flips the key comparison while keeping ties in
input order, which is exactly `mergeSort` with the flipped relation. -/
def get_standings (s : LeagueState) (sort_by : String) : List StandingRow :=
  if sort_by = "games" then (standingsList s).mergeSort byGamesDesc
  else (standingsList s).mergeSort byAvgDesc

/-- `CommanderLeague.add_player`. -/
def add_player (s : LeagueState) (name : String) : LeagueState :=
  if name ≠ "" ∧ s.players.lookup name = none then
    { s with players := s.players ++
        [(name, { points := 0, games_played := 0, mvp_count := 0,
                  color := paletteColor s.players.length })] }
  else s

/-- `CommanderLeague.remove_player`. -/
def remove_player (s : LeagueState) (name : String) : LeagueState :=
  if (s.players.lookup name).isSome then
    { s with players := s.players.filter (fun e => e.1 ≠ name) }
  else s

/-- `CommanderLeague.reset_league`. -/
def reset_league (s : LeagueState) : LeagueState :=
  { players := s.players.map
      (fun e => (e.1, { e.2 with points := 0, games_played := 0, mvp_count := 0 })),
    history := [] }

/-! ### Persistence

`save_to_file` runs `json.dump({"players": …, "history": …})` and
`load_from_file` runs `json.load` and assigns `data.get("players", …)` /
`data.get("history", …)`. We model the JSON document tree explicitly;
the program only ever writes strings, non-negative integers, arrays and
insertion-ordered objects. -/

/-- A JSON document as produced by `json.dump` / read by `json.load`. -/
inductive Json where
  | null
  | num (n : Int)
  | str (s : String)
  | arr (xs : List Json)
  | obj (fields : List (String × Json))
deriving Repr

/-- `dict.get(key, dflt)` on a decoded JSON object. -/
def jsonGet (fields : List (String × Json)) (key : String) (dflt : Json) : Json :=
  match fields.lookup key with
  | some v => v
  | none => dflt

/-- Serialization of one `self.players` value. -/
def encodePlayerData (d : PlayerData) : Json :=
  .obj [("points", .num (d.points : Int)),
        ("games_played", .num (d.games_played : Int)),
        ("mvp_count", .num (d.mvp_count : Int)),
        ("color", .str d.color)]

/-- Serialization of the `self.players` mapping. -/
def encodePlayers (ps : List (String × PlayerData)) : Json :=
  .obj (ps.map (fun e => (e.1, encodePlayerData e.2)))

/-- Serialization of a game's `results` dict (player name → placement). -/
def encodeResults (rs : List (String × String)) : Json :=
  .obj (rs.map (fun e => (e.1, Json.str e.2)))

/-- Serialization of one history entry. -/
def encodeGame (g : GameRecord) : Json :=
  .obj [("timestamp", .str g.timestamp),
        ("results", encodeResults g.results),
        ("notes", .str g.notes),
        ("mvp", .str g.mvp),
        ("deck_used", .str g.deck_used)]

/-- Serialization of `self.history`. -/
def encodeHistory (h : List GameRecord) : Json :=
  .arr (h.map encodeGame)

/-- `CommanderLeague.save_to_file`: the document written to the file. -/
def save_to_file (s : LeagueState) : Json :=
  .obj [("players", encodePlayers s.players), ("history", encodeHistory s.history)]

def decodeNat : Json → Option Nat
  | .num (.ofNat n) => some n
  | _ => none

def decodeStr : Json → Option String
  | .str s => some s
  | _ => none

/-- Reading back one `self.players` value. Restricted to the shape
`save_to_file` writes; any other shape is a malformed file. -/
def decodePlayerData : Json → Option PlayerData
  | .obj [("points", p), ("games_played", g), ("mvp_count", m), ("color", c)] => do
    let points ← decodeNat p
    let games_played ← decodeNat g
    let mvp_count ← decodeNat m
    let color ← decodeStr c
    pure { points := points, games_played := games_played,
           mvp_count := mvp_count, color := color }
  | _ => none

def decodePlayerEntry (e : String × Json) : Option (String × PlayerData) :=
  (decodePlayerData e.2).map (fun d => (e.1, d))

def decodePlayers : Json → Option (List (String × PlayerData))
  | .obj fields => fields.mapM decodePlayerEntry
  | _ => none

def decodeResultEntry (e : String × Json) : Option (String × String) :=
  (decodeStr e.2).map (fun p => (e.1, p))

def decodeResults : Json → Option (List (String × String))
  | .obj fields => fields.mapM decodeResultEntry
  | _ => none

def decodeGame : Json → Option GameRecord
  | .obj [("timestamp", t), ("results", r), ("notes", n), ("mvp", m), ("deck_used", d)] => do
    let timestamp ← decodeStr t
    let results ← decodeResults r
    let notes ← decodeStr n
    let mvp ← decodeStr m
    let deck_used ← decodeStr d
    pure { timestamp := timestamp, results := results, notes := notes,
           mvp := mvp, deck_used := deck_used }
  | _ => none

def decodeHistory : Json → Option (List GameRecord)
  | .arr xs => xs.mapM decodeGame
  | _ => none

/-- Reading the whole document back into league state, honouring the
`data.get("players", …)` / `data.get("history", …)` defaults. -/
def decodeState (j : Json) : Option (List (String × PlayerData) × List GameRecord) :=
  match j with
  | .obj fields => do
    let ps ← decodePlayers (jsonGet fields "players" (.obj []))
    let h ← decodeHistory (jsonGet fields "history" (.arr []))
    pure (ps, h)
  | _ => none

/-- `CommanderLeague.load_from_file`. `file = none` is the
`FileNotFoundError` path: the state is kept, the diagnostic
`"Save file not found. Starting new league."` is printed (the `Bool` in
the result records that the diagnostic was emitted) and no exception
escapes. A present well-formed file replaces the state wholesale; a
present malformed file is the unhandled-parse-error path, modelled as
`Except.error`. -/
def load_from_file (file : Option Json) (s : LeagueState) :
    Except String (LeagueState × Bool) :=
  match file with
  | none => .ok (s, true)
  | some j =>
    match decodeState j with
    | some (ps, h) => .ok ({ players := ps, history := h }, false)
    | none => .error "malformed save file"

/-! ### Association-list lemmas -/

theorem lookup_cons_self {β : Type} (a : String) (b : β) (l : List (String × β)) :
    List.lookup a ((a, b) :: l) = some b := by
  simp [List.lookup_cons]

theorem lookup_cons_ne {β : Type} {a k : String} (b : β) (l : List (String × β))
    (h : a ≠ k) : List.lookup a ((k, b) :: l) = List.lookup a l := by
  rw [List.lookup_cons, beq_eq_false_iff_ne.mpr h]

theorem lookup_eq_none_iff {β : Type} (a : String) (l : List (String × β)) :
    l.lookup a = none ↔ a ∉ l.map Prod.fst := by
  induction l with
  | nil => simp
  | cons e l ih =>
    obtain ⟨k, b⟩ := e
    by_cases h : a = k
    · subst h
      simp [lookup_cons_self]
    · rw [lookup_cons_ne _ _ h]
      simp [ih, h]

theorem lookup_isSome_iff {β : Type} (a : String) (l : List (String × β)) :
    (l.lookup a).isSome = true ↔ a ∈ l.map Prod.fst := by
  rcases hl : l.lookup a with _ | b
  · simp [(lookup_eq_none_iff a l).mp hl]
  · have hne : l.lookup a ≠ none := by simp [hl]
    have hmem : a ∈ l.map Prod.fst := by
      by_contra hc
      exact hne ((lookup_eq_none_iff a l).mpr hc)
    simp [hmem]

/-! ### `updatePlayer` lemmas -/

theorem updatePlayer_lookup_self (ps : List (String × PlayerData)) (n : String)
    (f : PlayerData → PlayerData) :
    (updatePlayer ps n f).lookup n = (ps.lookup n).map f := by
  induction ps with
  | nil => rfl
  | cons e ps ih =>
    obtain ⟨k, d⟩ := e
    by_cases h : k = n
    · subst h
      simp [updatePlayer, lookup_cons_self]
    · have h' : n ≠ k := fun hc => h hc.symm
      simp only [updatePlayer, List.map_cons, if_neg h]
      rw [lookup_cons_ne _ _ h', lookup_cons_ne _ _ h']
      exact ih

theorem updatePlayer_lookup_ne (ps : List (String × PlayerData)) (n m : String)
    (f : PlayerData → PlayerData) (h : m ≠ n) :
    (updatePlayer ps n f).lookup m = ps.lookup m := by
  induction ps with
  | nil => rfl
  | cons e ps ih =>
    obtain ⟨k, d⟩ := e
    by_cases hk : k = n
    · simp only [updatePlayer, List.map_cons, if_pos hk]
      by_cases hm : m = k
      · exact absurd (hm.trans hk) h
      · rw [lookup_cons_ne _ _ hm, lookup_cons_ne _ _ hm]
        exact ih
    · simp only [updatePlayer, List.map_cons, if_neg hk]
      by_cases hm : m = k
      · subst hm
        rw [lookup_cons_self, lookup_cons_self]
      · rw [lookup_cons_ne _ _ hm, lookup_cons_ne _ _ hm]
        exact ih

theorem updatePlayer_lookup_isSome (ps : List (String × PlayerData)) (n m : String)
    (f : PlayerData → PlayerData) :
    ((updatePlayer ps n f).lookup m).isSome = (ps.lookup m).isSome := by
  by_cases h : m = n
  · subst h
    rw [updatePlayer_lookup_self]
    cases ps.lookup m <;> rfl
  · rw [updatePlayer_lookup_ne _ _ _ _ h]

theorem updatePlayer_lookup_none (ps : List (String × PlayerData)) (n m : String)
    (f : PlayerData → PlayerData) (h : ps.lookup m = none) :
    (updatePlayer ps n f).lookup m = none := by
  by_cases hm : m = n
  · subst hm
    rw [updatePlayer_lookup_self, h]
    rfl
  · rw [updatePlayer_lookup_ne _ _ _ _ hm]
    exact h

theorem updatePlayer_keys (ps : List (String × PlayerData)) (n : String)
    (f : PlayerData → PlayerData) :
    (updatePlayer ps n f).map Prod.fst = ps.map Prod.fst := by
  induction ps with
  | nil => rfl
  | cons e ps ih =>
    by_cases h : e.1 = n <;> simp [updatePlayer, h] <;>
      simpa [updatePlayer] using ih

/-! ### `processResults` lemmas -/

theorem processResults_lookup_isSome (rs : List (String × String))
    (ps : List (String × PlayerData)) (m : String) :
    (((processResults ps rs).1).lookup m).isSome = (ps.lookup m).isSome := by
  induction rs generalizing ps with
  | nil => rfl
  | cons e rs ih =>
    obtain ⟨name, place⟩ := e
    by_cases hd : place = "Did Not Play"
    · simp only [processResults, if_pos hd]
      exact ih ps
    · by_cases hs : (ps.lookup name).isSome = true
      · simp only [processResults, if_neg hd, if_pos hs]
        rw [ih, updatePlayer_lookup_isSome]
      · simp only [processResults, if_neg hd, if_neg hs]

theorem processResults_ok (rs : List (String × String))
    (ps : List (String × PlayerData))
    (hok : ∀ e ∈ rs, e.2 = "Did Not Play" ∨ (ps.lookup e.1).isSome = true) :
    (processResults ps rs).2 = none := by
  induction rs generalizing ps with
  | nil => rfl
  | cons e rs ih =>
    obtain ⟨name, place⟩ := e
    by_cases hd : place = "Did Not Play"
    · simp only [processResults, if_pos hd]
      exact ih ps (fun e he => hok e (List.mem_cons_of_mem _ he))
    · have hs : (ps.lookup name).isSome = true := by
        rcases hok (name, place) (List.mem_cons_self _ _) with h | h
        · exact absurd h hd
        · exact h
      simp only [processResults, if_neg hd, if_pos hs]
      refine ih _ (fun e he => ?_)
      rcases hok e (List.mem_cons_of_mem _ he) with h | h
      · exact Or.inl h
      · refine Or.inr ?_
        rw [updatePlayer_lookup_isSome]
        exact h

theorem processResults_lookup_of_none (rs : List (String × String))
    (ps : List (String × PlayerData)) (n : String)
    (hentry : rs.lookup n = none) :
    ((processResults ps rs).1).lookup n = ps.lookup n := by
  induction rs generalizing ps with
  | nil => rfl
  | cons e rs ih =>
    obtain ⟨name, place⟩ := e
    have hne : n ≠ name := by
      intro hc
      subst hc
      rw [lookup_cons_self] at hentry
      exact Option.some_ne_none _ hentry
    rw [lookup_cons_ne _ _ hne] at hentry
    by_cases hd : place = "Did Not Play"
    · simp only [processResults, if_pos hd]
      exact ih ps hentry
    · by_cases hs : (ps.lookup name).isSome = true
      · simp only [processResults, if_neg hd, if_pos hs]
        rw [ih _ hentry, updatePlayer_lookup_ne _ _ _ _ hne]
      · simp only [processResults, if_neg hd, if_neg hs]

theorem processResults_lookup_of_entry (rs : List (String × String))
    (ps : List (String × PlayerData)) (n p : String)
    (hnd : (rs.map Prod.fst).Nodup)
    (hok : ∀ e ∈ rs, e.2 = "Did Not Play" ∨ (ps.lookup e.1).isSome = true)
    (hentry : rs.lookup n = some p) :
    ((processResults ps rs).1).lookup n =
      if p = "Did Not Play" then ps.lookup n
      else (ps.lookup n).map (creditPlacement p) := by
  induction rs generalizing ps with
  | nil => simp [List.lookup] at hentry
  | cons e rs ih =>
    obtain ⟨name, place⟩ := e
    simp only [List.map_cons, List.nodup_cons] at hnd
    by_cases hn : n = name
    · subst hn
      rw [lookup_cons_self] at hentry
      have hpp : place = p := Option.some_injective _ hentry
      subst hpp
      have htail : rs.lookup n = none :=
        (lookup_eq_none_iff n rs).mpr hnd.1
      by_cases hd : place = "Did Not Play"
      · simp only [processResults, if_pos hd]
        exact processResults_lookup_of_none rs ps n htail
      · have hs : (ps.lookup n).isSome = true := by
          rcases hok (n, place) (List.mem_cons_self _ _) with h | h
          · exact absurd h hd
          · exact h
        simp only [processResults, if_neg hd, if_pos hs]
        rw [processResults_lookup_of_none rs _ n htail,
          updatePlayer_lookup_self]
    · rw [lookup_cons_ne _ _ hn] at hentry
      by_cases hd : place = "Did Not Play"
      · simp only [processResults, if_pos hd]
        exact ih ps hnd.2 (fun e he => hok e (List.mem_cons_of_mem _ he)) hentry
      · have hs : (ps.lookup name).isSome = true := by
          rcases hok (name, place) (List.mem_cons_self _ _) with h | h
          · exact absurd h hd
          · exact h
        simp only [processResults, if_neg hd, if_pos hs]
        rw [ih _ hnd.2 ?_ hentry, updatePlayer_lookup_ne _ _ _ _ hn]
        intro e he
        rcases hok e (List.mem_cons_of_mem _ he) with h | h
        · exact Or.inl h
        · refine Or.inr ?_
          rw [updatePlayer_lookup_isSome]
          exact h

theorem processResults_lookup_mvp_count (rs : List (String × String))
    (ps : List (String × PlayerData)) (m : String) :
    (((processResults ps rs).1).lookup m).map (fun d => d.mvp_count) =
      (ps.lookup m).map (fun d => d.mvp_count) := by
  induction rs generalizing ps with
  | nil => rfl
  | cons e rs ih =>
    obtain ⟨name, place⟩ := e
    by_cases hd : place = "Did Not Play"
    · simp only [processResults, if_pos hd]
      exact ih ps
    · by_cases hs : (ps.lookup name).isSome = true
      · simp only [processResults, if_neg hd, if_pos hs]
        rw [ih]
        by_cases hm : m = name
        · subst hm
          rw [updatePlayer_lookup_self, Option.map_map]
          rfl
        · rw [updatePlayer_lookup_ne _ _ _ _ hm]
      · simp only [processResults, if_neg hd, if_neg hs]

/-! ### `record_game_results` unfolding lemmas -/

theorem record_game_results_eq_ok (s : LeagueState) (ts : String)
    (rs : List (String × String)) (notes mvp deck : String)
    (hok : ∀ e ∈ rs, e.2 = "Did Not Play" ∨ (s.players.lookup e.1).isSome = true) :
    record_game_results s ts rs notes mvp deck =
      ({ players :=
           if mvp ≠ "" ∧ ((processResults s.players rs).1.lookup mvp).isSome
           then updatePlayer (processResults s.players rs).1 mvp creditMvp
           else (processResults s.players rs).1,
         history := s.history ++
           [{ timestamp := ts, results := rs, notes := notes, mvp := mvp,
              deck_used := deck }] },
       none) := by
  have h2 := processResults_ok rs s.players hok
  rcases hps : processResults s.players rs with ⟨ps, err⟩
  rw [hps] at h2
  cases err with
  | some m => exact absurd h2 (by simp)
  | none =>
    simp only [record_game_results, hps]
    by_cases hc : mvp ≠ "" ∧ (List.lookup mvp ps).isSome = true
    · rw [if_pos hc, if_pos hc]
    · rw [if_neg hc, if_neg hc]

theorem record_game_results_eq_err (s : LeagueState) (ts : String)
    (rs : List (String × String)) (notes mvp deck : String)
    (ps : List (String × PlayerData)) (n : String)
    (h : processResults s.players rs = (ps, some n)) :
    record_game_results s ts rs notes mvp deck =
      ({ players := ps,
         history := s.history ++
           [{ timestamp := ts, results := rs, notes := notes, mvp := mvp,
              deck_used := deck }] },
       some n) := by
  simp [record_game_results, h]

theorem processResults_append_err (pre : List (String × String))
    (ps : List (String × PlayerData)) (n p : String) (rest : List (String × String))
    (hpre : ∀ e ∈ pre, e.2 = "Did Not Play" ∨ (ps.lookup e.1).isSome = true)
    (hp : p ≠ "Did Not Play") (hn : ps.lookup n = none) :
    processResults ps (pre ++ (n, p) :: rest) = ((processResults ps pre).1, some n) := by
  induction pre generalizing ps with
  | nil =>
    have hs : ¬((ps.lookup n).isSome = true) := by simp [hn]
    simp only [List.nil_append, processResults, if_neg hp, if_neg hs]
  | cons e pre ih =>
    obtain ⟨name, place⟩ := e
    by_cases hd : place = "Did Not Play"
    · simp only [List.cons_append, processResults, if_pos hd]
      exact ih ps (fun e he => hpre e (List.mem_cons_of_mem _ he)) hn
    · have hs : (ps.lookup name).isSome = true := by
        rcases hpre (name, place) (List.mem_cons_self _ _) with h | h
        · exact absurd h hd
        · exact h
      simp only [List.cons_append, processResults, if_neg hd, if_pos hs]
      refine ih _ (fun e he => ?_) (updatePlayer_lookup_none _ _ _ _ hn)
      rcases hpre e (List.mem_cons_of_mem _ he) with h | h
      · exact Or.inl h
      · refine Or.inr ?_
        rw [updatePlayer_lookup_isSome]
        exact h

/-! ### `get_standings` helper lemmas -/

theorem byGamesDesc_trans (a b c : StandingRow)
    (hab : byGamesDesc a b = true) (hbc : byGamesDesc b c = true) :
    byGamesDesc a c = true := by
  simp only [byGamesDesc, decide_eq_true_eq] at *
  exact le_trans hbc hab

theorem byGamesDesc_total (a b : StandingRow) :
    (byGamesDesc a b || byGamesDesc b a) = true := by
  simp only [byGamesDesc, Bool.or_eq_true, decide_eq_true_eq]
  exact Nat.le_total b.games a.games

theorem byAvgDesc_trans (a b c : StandingRow)
    (hab : byAvgDesc a b = true) (hbc : byAvgDesc b c = true) :
    byAvgDesc a c = true := by
  simp only [byAvgDesc, decide_eq_true_eq] at *
  exact le_trans hbc hab

theorem byAvgDesc_total (a b : StandingRow) :
    (byAvgDesc a b || byAvgDesc b a) = true := by
  simp only [byAvgDesc, Bool.or_eq_true, decide_eq_true_eq]
  exact le_total b.avg a.avg

theorem get_standings_perm (s : LeagueState) (k : String) :
    (get_standings s k).Perm (standingsList s) := by
  unfold get_standings
  by_cases hk : k = "games"
  · rw [if_pos hk]
    exact List.mergeSort_perm _ _
  · rw [if_neg hk]
    exact List.mergeSort_perm _ _

theorem get_standings_pairwise_games (s : LeagueState) :
    (get_standings s "games").Pairwise (fun a b => b.games ≤ a.games) := by
  unfold get_standings
  rw [if_pos rfl]
  have h := List.sorted_mergeSort byGamesDesc_trans byGamesDesc_total (standingsList s)
  exact h.imp (fun hab => by simpa [byGamesDesc, decide_eq_true_eq] using hab)

theorem get_standings_pairwise_avg (s : LeagueState) (k : String) (hk : k ≠ "games") :
    (get_standings s k).Pairwise (fun a b => b.avg ≤ a.avg) := by
  unfold get_standings
  rw [if_neg hk]
  have h := List.sorted_mergeSort byAvgDesc_trans byAvgDesc_total (standingsList s)
  exact h.imp (fun hab => by simpa [byAvgDesc, decide_eq_true_eq] using hab)

/-! ### Serialization round-trip lemmas -/

theorem mapM_map_eq_some {α β : Type} (f : α → β) (g : β → Option α)
    (h : ∀ x, g (f x) = some x) (xs : List α) :
    (xs.map f).mapM g = some xs := by
  induction xs with
  | nil => rfl
  | cons x xs ih =>
    rw [List.map_cons, List.mapM_cons, h x, ih]
    rfl

theorem decodePlayerData_encode (d : PlayerData) :
    decodePlayerData (encodePlayerData d) = some d := rfl

theorem decodePlayerEntry_encode (e : String × PlayerData) :
    decodePlayerEntry (e.1, encodePlayerData e.2) = some e := rfl

theorem decodePlayers_encode (ps : List (String × PlayerData)) :
    decodePlayers (encodePlayers ps) = some ps := by
  simp only [encodePlayers, decodePlayers]
  exact mapM_map_eq_some _ _ decodePlayerEntry_encode ps

theorem decodeResultEntry_encode (e : String × String) :
    decodeResultEntry (e.1, Json.str e.2) = some e := rfl

theorem decodeResults_encode (rs : List (String × String)) :
    decodeResults (encodeResults rs) = some rs := by
  simp only [encodeResults, decodeResults]
  exact mapM_map_eq_some _ _ decodeResultEntry_encode rs

theorem decodeGame_encode (g : GameRecord) :
    decodeGame (encodeGame g) = some g := by
  simp [encodeGame, decodeGame, decodeStr, decodeResults_encode]

theorem decodeHistory_encode (h : List GameRecord) :
    decodeHistory (encodeHistory h) = some h := by
  simp only [encodeHistory, decodeHistory]
  exact mapM_map_eq_some _ _ decodeGame_encode h

theorem decodeState_save (s : LeagueState) :
    decodeState (save_to_file s) = some (s.players, s.history) := by
  have h1 : jsonGet [("players", encodePlayers s.players),
      ("history", encodeHistory s.history)] "players" (.obj []) =
      encodePlayers s.players := by
    simp [jsonGet, lookup_cons_self]
  have h2 : jsonGet [("players", encodePlayers s.players),
      ("history", encodeHistory s.history)] "history" (.arr []) =
      encodeHistory s.history := by
    simp only [jsonGet]
    rw [lookup_cons_ne _ _ (by decide), lookup_cons_self]
  simp [save_to_file, decodeState, h1, h2, decodePlayers_encode, decodeHistory_encode]

theorem load_save (s s₀ : LeagueState) :
    load_from_file (some (save_to_file s)) s₀ = .ok (s, false) := by
  simp [load_from_file, decodeState_save s]

/-! ### Effect of a successful `record_game_results` on one player -/

theorem record_lookup_effect (s : LeagueState) (ts : String)
    (rs : List (String × String)) (notes mvp deck n p : String)
    (hnd : (rs.map Prod.fst).Nodup)
    (hrost : ∀ e ∈ rs, (s.players.lookup e.1).isSome = true)
    (hentry : rs.lookup n = some p) (hnmvp : n ≠ mvp) :
    (record_game_results s ts rs notes mvp deck).2 = none ∧
    (record_game_results s ts rs notes mvp deck).1.players.lookup n =
      (if p = "Did Not Play" then s.players.lookup n
       else (s.players.lookup n).map (creditPlacement p)) := by
  have hok : ∀ e ∈ rs, e.2 = "Did Not Play" ∨ (s.players.lookup e.1).isSome = true :=
    fun e he => Or.inr (hrost e he)
  rw [record_game_results_eq_ok s ts rs notes mvp deck hok]
  refine ⟨rfl, ?_⟩
  show (if mvp ≠ "" ∧ ((processResults s.players rs).1.lookup mvp).isSome
        then updatePlayer (processResults s.players rs).1 mvp creditMvp
        else (processResults s.players rs).1).lookup n = _
  have hmain := processResults_lookup_of_entry rs s.players n p hnd hok hentry
  by_cases hc : mvp ≠ "" ∧ ((processResults s.players rs).1.lookup mvp).isSome = true
  · rw [if_pos hc, updatePlayer_lookup_ne _ _ _ _ hnmvp]
    exact hmain
  · rw [if_neg hc]
    exact hmain

theorem placementPoints_unknown (p : String)
    (h : p ∉ ["1st", "2nd", "3rd", "4th", "5th+", "Did Not Play"]) :
    placementPoints p = 0 := by
  simp only [List.mem_cons, List.not_mem_nil, or_false, not_or] at h
  obtain ⟨h1, h2, h3, h4, _, _⟩ := h
  simp [placementPoints, h1, h2, h3, h4]

/-! ### Claim theorems -/

/-- C1 counterexample: roster has only player A with zeroed stats; the game
maps every rostered player to the valid placement tag "Did Not Play" and names
A as MVP. The claim says a player placed "Did Not Play" has points,
games_played and mvp_count unchanged, but A's entry changes from
(0, 0, 0) to points 1, mvp_count 1. -/
theorem record_dnp_player_changed_by_mvp :
    (∀ e ∈ [(("A" : String), ("Did Not Play" : String))],
        e.2 ∈ ["1st", "2nd", "3rd", "4th", "5th+", "Did Not Play"] ∧
        ((LeagueState.mk [("A", ⟨0, 0, 0, "red"⟩)] []).players.lookup e.1).isSome = true) ∧
    (∀ e ∈ (LeagueState.mk [("A", ⟨0, 0, 0, "red"⟩)] []).players,
        (([(("A" : String), ("Did Not Play" : String))]).lookup e.1).isSome = true) ∧
    (record_game_results (LeagueState.mk [("A", ⟨0, 0, 0, "red"⟩)] []) "t"
        [("A", "Did Not Play")] "" "A" "").1.players.lookup "A" =
      some ⟨1, 0, 1, "red"⟩ ∧
    ¬ ((record_game_results (LeagueState.mk [("A", ⟨0, 0, 0, "red"⟩)] []) "t"
        [("A", "Did Not Play")] "" "A" "").1.players.lookup "A" =
      (LeagueState.mk [("A", ⟨0, 0, 0, "red"⟩)] []).players.lookup "A") := by
  decide

/-- C1 (amended): in a successful `record_game_results` call whose results map
each rostered player to a placement tag, every player other than the name
passed as `mvp` behaves as the claim states: with a placement that is not
"Did Not Play" their stats change by exactly `creditPlacement` (points plus the
fixed award 1st=5, 2nd=3, 3rd=2, 4th=1, 5th+=0 and games_played plus 1,
mvp_count untouched), and with placement "Did Not Play" their entry is
completely unchanged. -/
theorem record_placement_effects_non_mvp (s : LeagueState) (ts : String)
    (rs : List (String × String)) (notes mvp deck n p : String)
    (hnd : (rs.map Prod.fst).Nodup)
    (hvalid : ∀ e ∈ rs, e.2 ∈ ["1st", "2nd", "3rd", "4th", "5th+", "Did Not Play"])
    (hrost : ∀ e ∈ rs, (s.players.lookup e.1).isSome = true)
    (hall : ∀ e ∈ s.players, (rs.lookup e.1).isSome = true)
    (hentry : rs.lookup n = some p) (hnmvp : n ≠ mvp) :
    (record_game_results s ts rs notes mvp deck).2 = none ∧
    (p ≠ "Did Not Play" →
      (record_game_results s ts rs notes mvp deck).1.players.lookup n =
        (s.players.lookup n).map (creditPlacement p)) ∧
    (p = "Did Not Play" →
      (record_game_results s ts rs notes mvp deck).1.players.lookup n =
        s.players.lookup n) := by
  obtain ⟨h1, h2⟩ := record_lookup_effect s ts rs notes mvp deck n p hnd hrost hentry hnmvp
  refine ⟨h1, fun hp => ?_, fun hp => ?_⟩
  · rw [h2, if_neg hp]
  · rw [h2, if_pos hp]

/-- Witness for C1 (amended): two players, A placed 1st and B placed
"Did Not Play", no MVP named; A gains exactly 5 points and 1 game. -/
theorem record_placement_effects_non_mvp_witness :
    (record_game_results (LeagueState.mk
        [("A", ⟨0, 0, 0, "red"⟩), ("B", ⟨2, 1, 0, "blue"⟩)] [])
      "t" [("A", "1st"), ("B", "Did Not Play")] "" "" "").1.players.lookup "A" =
      some ⟨5, 1, 0, "red"⟩ :=
  ((record_placement_effects_non_mvp (LeagueState.mk
        [("A", ⟨0, 0, 0, "red"⟩), ("B", ⟨2, 1, 0, "blue"⟩)] [])
      "t" [("A", "1st"), ("B", "Did Not Play")] "" "" "" "A" "1st"
      (by decide) (by decide) (by decide) (by decide) (by decide)
      (by decide)).2.1 (by decide)).trans (by decide)

/-- C10 counterexample: roster has only player A; A's placement tag
"2nd place" is none of the six known tags, and A is also named MVP. The claim
says A is credited 0 points (so A's points stay 0) with games_played
incremented, but A ends at points 1, games_played 1, mvp_count 1. -/
theorem record_unknown_tag_changed_by_mvp :
    ((LeagueState.mk [("A", ⟨0, 0, 0, "red"⟩)] []).players.lookup "A").isSome = true ∧
    ("2nd place" ∉ ["1st", "2nd", "3rd", "4th", "5th+", "Did Not Play"]) ∧
    (record_game_results (LeagueState.mk [("A", ⟨0, 0, 0, "red"⟩)] []) "t"
        [("A", "2nd place")] "" "A" "").1.players.lookup "A" =
      some ⟨1, 1, 1, "red"⟩ ∧
    ¬ ((record_game_results (LeagueState.mk [("A", ⟨0, 0, 0, "red"⟩)] []) "t"
        [("A", "2nd place")] "" "A" "").1.players.lookup "A" =
      some ⟨0, 1, 0, "red"⟩) := by
  decide

/-- C10 (amended): in a successful `record_game_results` call, a rostered
player whose placement tag is none of the six known tags, and who is not the
name passed as `mvp`, is credited 0 points and only has games_played
incremented by 1. -/
theorem record_unknown_tag_effect (s : LeagueState) (ts : String)
    (rs : List (String × String)) (notes mvp deck n p : String)
    (hnd : (rs.map Prod.fst).Nodup)
    (hrost : ∀ e ∈ rs, (s.players.lookup e.1).isSome = true)
    (hentry : rs.lookup n = some p)
    (hunk : p ∉ ["1st", "2nd", "3rd", "4th", "5th+", "Did Not Play"])
    (hnmvp : n ≠ mvp) :
    (record_game_results s ts rs notes mvp deck).1.players.lookup n =
      (s.players.lookup n).map
        (fun d => { d with games_played := d.games_played + 1 }) := by
  obtain ⟨_, h2⟩ := record_lookup_effect s ts rs notes mvp deck n p hnd hrost hentry hnmvp
  have hdnp : p ≠ "Did Not Play" := by
    intro hc
    exact hunk (by rw [hc]; simp)
  rw [h2, if_neg hdnp]
  have hz := placementPoints_unknown p hunk
  rcases s.players.lookup n with _ | d
  · rfl
  · simp [creditPlacement, hz]

/-- Witness for C10 (amended): player A with 7 points and 3 games gets the
unknown tag "Second"; afterwards A has the same points and mvp_count with one
more game played. -/
theorem record_unknown_tag_effect_witness :
    (record_game_results (LeagueState.mk [("A", ⟨7, 3, 2, "red"⟩)] []) "t"
        [("A", "Second")] "" "" "").1.players.lookup "A" =
      some ⟨7, 4, 2, "red"⟩ :=
  (record_unknown_tag_effect (LeagueState.mk [("A", ⟨7, 3, 2, "red"⟩)] []) "t"
      [("A", "Second")] "" "" "" "A" "Second"
      (by decide) (by decide) (by decide) (by decide) (by decide)).trans (by decide)

/-- C2: in a successful `record_game_results` call, a non-empty `mvp` naming a
rostered player gets `creditMvp` (exactly 1 extra point and exactly 1 extra
mvp_count) applied on top of whatever the placement loop produced for them —
so independent of their placement — and their mvp_count ends exactly one above
its pre-call value; while an empty or unrostered `mvp` leaves the roster
exactly as the placement loop alone produced it, changing nobody's points or
mvp_count on the MVP's account. -/
theorem record_mvp_effects (s : LeagueState) (ts : String)
    (rs : List (String × String)) (notes mvp deck : String)
    (hok : ∀ e ∈ rs, e.2 = "Did Not Play" ∨ (s.players.lookup e.1).isSome = true) :
    (mvp ≠ "" → (s.players.lookup mvp).isSome = true →
      (record_game_results s ts rs notes mvp deck).1.players.lookup mvp =
        (((processResults s.players rs).1).lookup mvp).map creditMvp ∧
      ((record_game_results s ts rs notes mvp deck).1.players.lookup mvp).map
          (fun d => d.mvp_count) =
        (s.players.lookup mvp).map (fun d => d.mvp_count + 1)) ∧
    ((mvp = "" ∨ s.players.lookup mvp = none) →
      (record_game_results s ts rs notes mvp deck).1.players =
        (processResults s.players rs).1) := by
  rw [record_game_results_eq_ok s ts rs notes mvp deck hok]
  constructor
  · intro hne hsome
    have hsome' : ((processResults s.players rs).1.lookup mvp).isSome = true := by
      rw [processResults_lookup_isSome]
      exact hsome
    have hc : mvp ≠ "" ∧ ((processResults s.players rs).1.lookup mvp).isSome = true :=
      ⟨hne, hsome'⟩
    constructor
    · show (if mvp ≠ "" ∧ ((processResults s.players rs).1.lookup mvp).isSome
          then updatePlayer (processResults s.players rs).1 mvp creditMvp
          else (processResults s.players rs).1).lookup mvp = _
      rw [if_pos hc, updatePlayer_lookup_self]
    · show ((if mvp ≠ "" ∧ ((processResults s.players rs).1.lookup mvp).isSome
          then updatePlayer (processResults s.players rs).1 mvp creditMvp
          else (processResults s.players rs).1).lookup mvp).map (fun d => d.mvp_count) = _
      rw [if_pos hc, updatePlayer_lookup_self, Option.map_map]
      have hcount := congrArg (Option.map (fun k => k + 1))
        (processResults_lookup_mvp_count rs s.players mvp)
      rw [Option.map_map, Option.map_map] at hcount
      exact hcount
  · intro hdead
    show (if mvp ≠ "" ∧ ((processResults s.players rs).1.lookup mvp).isSome
        then updatePlayer (processResults s.players rs).1 mvp creditMvp
        else (processResults s.players rs).1) = _
    rcases hdead with h | h
    · rw [if_neg]
      intro hc
      exact hc.1 h
    · rw [if_neg]
      intro hc
      have := hc.2
      rw [processResults_lookup_isSome, h] at this
      exact Bool.false_ne_true this

/-- Witness for C2: A placed 2nd and named MVP ends with 3 + 1 points and
mvp_count 1. -/
theorem record_mvp_effects_witness :
    (record_game_results (LeagueState.mk [("A", ⟨0, 0, 0, "red"⟩)] []) "t"
        [("A", "2nd")] "" "A" "").1.players.lookup "A" =
      (((processResults (LeagueState.mk [("A", ⟨0, 0, 0, "red"⟩)] []).players
          [("A", "2nd")]).1).lookup "A").map creditMvp :=
  ((record_mvp_effects (LeagueState.mk [("A", ⟨0, 0, 0, "red"⟩)] []) "t"
      [("A", "2nd")] "" "A" "" (by decide)).1 (by decide) (by decide)).1

/-- C3: `get_standings` returns exactly one row (the tuple of name, points,
games, average and mvp_count built by `standingRow`) per rostered player — its
output is a permutation of the unsorted per-player list — ordered descending
in games_played when `sort_by` is "games", and descending in average for
"average" and for every other `sort_by` value. -/
theorem get_standings_rows_and_order (s : LeagueState) (k : String) :
    (get_standings s k).Perm (standingsList s) ∧
    (k = "games" →
      (get_standings s k).Pairwise (fun a b => b.games ≤ a.games)) ∧
    (k ≠ "games" →
      (get_standings s k).Pairwise (fun a b => b.avg ≤ a.avg)) := by
  refine ⟨get_standings_perm s k, fun hk => ?_,
    fun hk => get_standings_pairwise_avg s k hk⟩
  subst hk
  exact get_standings_pairwise_games s

/-- Witness for C3: with B on 2 games and A on 1, sorting by "games" yields a
list that is pairwise descending in games_played. -/
theorem get_standings_rows_and_order_witness :
    (get_standings (LeagueState.mk
        [("A", ⟨6, 1, 1, "red"⟩), ("B", ⟨8, 2, 0, "blue"⟩)] []) "games").Pairwise
      (fun a b => b.games ≤ a.games) :=
  (get_standings_rows_and_order (LeagueState.mk
      [("A", ⟨6, 1, 1, "red"⟩), ("B", ⟨8, 2, 0, "blue"⟩)] []) "games").2.1 rfl

/-- C4: saving a league and loading the result back (into any in-memory
state) succeeds without a diagnostic and yields a state whose standings under
any sort key, and whose history, are identical to those of the saved league. -/
theorem save_load_roundtrip (s s₀ : LeagueState) (k : String) :
    ∃ s₁, load_from_file (some (save_to_file s)) s₀ = Except.ok (s₁, false) ∧
      get_standings s₁ k = get_standings s k ∧ s₁.history = s.history :=
  ⟨s, load_save s s₀, rfl, rfl⟩

/-- Per-entry key preservation of the reset map. -/
theorem resetPlayers_fst (ps : List (String × PlayerData)) :
    (ps.map (fun e =>
      (e.1, { e.2 with points := 0, games_played := 0, mvp_count := 0 }))).map
        Prod.fst = ps.map Prod.fst := by
  induction ps with
  | nil => rfl
  | cons e ps ih => simp [ih]

/-- Per-entry color preservation of the reset map. -/
theorem resetPlayers_color (ps : List (String × PlayerData)) :
    (ps.map (fun e =>
      (e.1, { e.2 with points := 0, games_played := 0, mvp_count := 0 }))).map
        (fun e => e.2.color) = ps.map (fun e => e.2.color) := by
  induction ps with
  | nil => rfl
  | cons e ps ih => simp [ih]

/-- C5: `reset_league` empties the history and zeroes points, games_played and
mvp_count of every rostered player while keeping the roster's names (in
order) and colors; afterwards every `get_standings` row shows points 0,
games 0, average 0 and mvp 0. -/
theorem reset_league_spec (s : LeagueState) (k : String) :
    (reset_league s).history = [] ∧
    (reset_league s).players.map Prod.fst = s.players.map Prod.fst ∧
    (reset_league s).players.map (fun e => e.2.color) =
      s.players.map (fun e => e.2.color) ∧
    ((reset_league s).players.all (fun e =>
        e.2.points == 0 && e.2.games_played == 0 && e.2.mvp_count == 0)) = true ∧
    ((get_standings (reset_league s) k).all (fun r =>
        r.points == 0 && r.games == 0 && decide (r.avg = 0) && r.mvp == 0)) = true := by
  refine ⟨rfl, resetPlayers_fst s.players, resetPlayers_color s.players, ?_, ?_⟩
  · rw [List.all_eq_true]
    intro x hx
    obtain ⟨e, _, rfl⟩ := List.mem_map.mp hx
    simp
  · rw [List.all_eq_true]
    intro r hr
    have hr' : r ∈ standingsList (reset_league s) :=
      (get_standings_perm (reset_league s) k).mem_iff.mp hr
    obtain ⟨e, he, rfl⟩ := List.mem_map.mp hr'
    obtain ⟨e', _, rfl⟩ := List.mem_map.mp he
    simp [standingRow, avgOf]

/-- C6: loading when the save file is absent keeps the in-memory state
unchanged, emits the diagnostic, and returns normally instead of raising. -/
theorem load_missing_file_noop (s : LeagueState) :
    load_from_file none s = Except.ok (s, true) := rfl

/-- C7: a standings row of a player with zero games_played reports average
exactly 0: the division is guarded by `games > 0`. -/
theorem zero_games_zero_avg (s : LeagueState) (k : String) (r : StandingRow)
    (hr : r ∈ get_standings s k) (h0 : r.games = 0) : r.avg = 0 := by
  have hr' : r ∈ standingsList s := (get_standings_perm s k).mem_iff.mp hr
  obtain ⟨e, _, rfl⟩ := List.mem_map.mp hr'
  simp only [standingRow] at h0 ⊢
  simp [avgOf, h0]

/-- Witness for C7: a roster with one playerless game count yields the row
with average literally 0. -/
theorem zero_games_zero_avg_witness :
    (standingRow ("A", ⟨4, 0, 0, "red"⟩)).avg = 0 :=
  zero_games_zero_avg (LeagueState.mk [("A", ⟨4, 0, 0, "red"⟩)] []) "average"
    (standingRow ("A", ⟨4, 0, 0, "red"⟩))
    ((get_standings_perm (LeagueState.mk [("A", ⟨4, 0, 0, "red"⟩)] [])
        "average").mem_iff.mpr (by simp [standingsList]))
    rfl

/-- C8: `add_player` keeps the history; it is a no-op on an empty name or a
name already rostered; otherwise it appends the new player (leaving every
existing entry untouched) with zeroed stats and the palette color at index
(current roster size mod palette size). -/
theorem add_player_spec (s : LeagueState) (name : String) :
    (add_player s name).history = s.history ∧
    (name = "" → add_player s name = s) ∧
    ((s.players.lookup name).isSome = true → add_player s name = s) ∧
    (name ≠ "" → s.players.lookup name = none →
      (add_player s name).players =
        s.players ++ [(name, { points := 0, games_played := 0, mvp_count := 0,
                               color := paletteColor s.players.length })]) := by
  refine ⟨?_, ?_, ?_, ?_⟩
  · unfold add_player
    split <;> rfl
  · intro h
    unfold add_player
    rw [if_neg]
    intro hc
    exact hc.1 h
  · intro h
    unfold add_player
    rw [if_neg]
    intro hc
    rw [hc.2] at h
    exact Bool.false_ne_true h
  · intro h1 h2
    unfold add_player
    rw [if_pos ⟨h1, h2⟩]

/-- Witness for C8: adding "B" to a one-player roster appends B with zeroed
stats and the palette color at index 1 mod 9, which is "blue". -/
theorem add_player_spec_witness :
    (add_player (LeagueState.mk [("A", ⟨3, 1, 0, "red"⟩)] []) "B").players =
      [("A", ⟨3, 1, 0, "red"⟩), ("B", ⟨0, 0, 0, "blue"⟩)] :=
  ((add_player_spec (LeagueState.mk [("A", ⟨3, 1, 0, "red"⟩)] []) "B").2.2.2
    (by decide) (by decide)).trans (by decide)

/-- C9: when the results mapping contains, after a well-behaved prefix, an
entry for a name absent from the roster with a placement other than
"Did Not Play", `record_game_results` raises `KeyError` at that name (the
`some` in the second component), and at that point the new `GameRecord` has
already been appended to the history and every non-"Did Not Play" entry of the
prefix has already been credited: the operation is not atomic on this error. -/
theorem record_keyerror_not_atomic (s : LeagueState) (ts notes mvp deck : String)
    (pre rest : List (String × String)) (n p : String)
    (hnd : ((pre ++ (n, p) :: rest).map Prod.fst).Nodup)
    (hpre : ∀ e ∈ pre, e.2 = "Did Not Play" ∨ (s.players.lookup e.1).isSome = true)
    (hp : p ≠ "Did Not Play") (hn : s.players.lookup n = none) :
    (record_game_results s ts (pre ++ (n, p) :: rest) notes mvp deck).2 = some n ∧
    (record_game_results s ts (pre ++ (n, p) :: rest) notes mvp deck).1.history =
      s.history ++ [{ timestamp := ts, results := pre ++ (n, p) :: rest,
                      notes := notes, mvp := mvp, deck_used := deck }] ∧
    (∀ m q, pre.lookup m = some q → q ≠ "Did Not Play" →
      (record_game_results s ts (pre ++ (n, p) :: rest) notes mvp deck).1.players.lookup m =
        (s.players.lookup m).map (creditPlacement q)) := by
  have herr := processResults_append_err pre s.players n p rest hpre hp hn
  rw [record_game_results_eq_err s ts _ notes mvp deck _ n herr]
  refine ⟨rfl, rfl, ?_⟩
  intro m q hm hq
  have hndpre : (pre.map Prod.fst).Nodup := by
    rw [List.map_append] at hnd
    exact (List.nodup_append.mp hnd).1
  have := processResults_lookup_of_entry pre s.players m q hndpre hpre hm
  rw [if_neg hq] at this
  exact this

/-- Witness for C9: with rostered A and B and results A=1st, C=2nd, B=3rd
(C unrostered), the call errors at C while A has already been credited and the
game is already in the history. -/
theorem record_keyerror_not_atomic_witness :
    (record_game_results (LeagueState.mk
        [("A", ⟨0, 0, 0, "red"⟩), ("B", ⟨0, 0, 0, "blue"⟩)] [])
      "t" ([("A", "1st")] ++ ("C", "2nd") :: [("B", "3rd")]) "" "" "").2 = some "C" :=
  (record_keyerror_not_atomic (LeagueState.mk
        [("A", ⟨0, 0, 0, "red"⟩), ("B", ⟨0, 0, 0, "blue"⟩)] [])
      "t" "" "" "" [("A", "1st")] [("B", "3rd")] "C" "2nd"
      (by decide) (by decide) (by decide) (by decide)).1

end LeagueTracker
